import Mathlib

/-!
Verification development for the value-resolution engine of the
ConfigArgParse library (`configargparse.py`).  The Python source is embedded
shallowly: pure functions become Lean functions, the stateful global parser
registry becomes explicit state passing, fallible code returns `Except`.
The restricted Python regular expressions used by `ConfigFileParser.parse`
are embedded through a small backtracking matcher covering exactly the regex
fragment those patterns use.
-/

namespace ConfigArgParse

/-- Python `\s` character class: the six ASCII whitespace characters. -/
def isPyWhitespace (c : Char) : Bool :=
  c == ' ' || c == '\t' || c == '\n' || c == '\r' || c == '\x0b' || c == '\x0c'

/-- Drop characters satisfying `p` from both ends of a character list. -/
def dropEndsBy (p : Char → Bool) (s : List Char) : List Char :=
  ((s.dropWhile p).reverse.dropWhile p).reverse

/-- Python `str.strip()` (no-argument form): remove surrounding whitespace. -/
def pyStrip (s : String) : String := String.mk (dropEndsBy isPyWhitespace s.toList)

/-- Python `str.strip(chars)`: remove surrounding characters drawn from `chars`. -/
def pyStripChars (chars : List Char) (s : String) : String :=
  String.mk (dropEndsBy (fun c => chars.contains c) s.toList)

/-- Python `str.lower()` restricted to ASCII case mapping. -/
def pyLower (s : String) : String := String.mk (s.toList.map Char.toLower)

/-- Python `str.startswith(pre)`. -/
def pyStartsWith (s pre : String) : Bool := pre.toList.isPrefixOf s.toList

/-- Python `str.endswith(suf)`. -/
def pyEndsWith (s suf : String) : Bool := suf.toList.isSuffixOf s.toList

/-- Python `str.split(",")` (single-character separator, keeping empty pieces). -/
def splitOnComma (s : List Char) : List (List Char) :=
  s.foldr
    (fun c acc =>
      match acc with
      | cur :: rest => if c == ',' then [] :: cur :: rest else (c :: cur) :: rest
      | [] => [[c]])
    [[]]

/-- Named-group captures produced by a successful regular-expression match. -/
abbrev Caps := List (String × String)

/-- The fragment of Python regular expressions used by `ConfigFileParser.parse`:
single-character classes, greedy `*` over a class, lazy `+?` over a class
(optionally binding a named group), greedy `.*`, greedy optional groups and
concatenation.  Anchoring (`^`, `$`) is handled by `fullMatch`. -/
inductive Pat where
  | cls (p : Char → Bool)
  | starGreedy (p : Char → Bool)
  | plusLazy (g : Option String) (p : Char → Bool)
  | dotStar
  | opt (a : Pat)
  | seq (a b : Pat)

/-- Backtracking matcher for `Pat`, mirroring Python `re` semantics on this
fragment: greedy pieces try longer matches first, lazy pieces shorter ones
first, an optional group first tries to be present; `k` is the continuation
receiving the unconsumed input. -/
def matchPat : Pat → List Char → (List Char → Option Caps) → Option Caps
  | .cls p, s, k =>
    match s with
    | [] => none
    | c :: rest => if p c then k rest else none
  | .starGreedy p, s, k =>
    (List.range ((s.takeWhile p).length + 1)).reverse.findSome? fun i => k (s.drop i)
  | .plusLazy g p, s, k =>
    (List.range' 1 (s.takeWhile p).length).findSome? fun i =>
      (k (s.drop i)).map fun caps =>
        match g with
        | some name => (name, String.mk (s.take i)) :: caps
        | none => caps
  | .dotStar, s, k =>
    (List.range ((s.takeWhile (fun c => c != '\n')).length + 1)).reverse.findSome?
      fun i => k (s.drop i)
  | .opt a, s, k => (matchPat a s k).orElse fun _ => k s
  | .seq a b, s, k => matchPat a s fun r => matchPat b r k

/-- Anchored match (the source patterns carry explicit `^` and `$`). -/
def fullMatch (p : Pat) (s : String) : Option Caps :=
  matchPat p s.toList fun r => if r.isEmpty then some [] else none

/-- `white_space = "\\s*"` from `ConfigFileParser.parse`. -/
def wsPat : Pat := .starGreedy isPyWhitespace

/-- Characters allowed in a key: `[^:=;#\s]`. -/
def isKeyChar (c : Char) : Bool :=
  !(c == ':' || c == '=' || c == ';' || c == '#' || isPyWhitespace c)

/-- `key = "(?P<key>[^:=;#\s]+?)"`. -/
def keyPat : Pat := .plusLazy (some ("key")) isKeyChar

/-- `value1 = white_space+"[:=]"+white_space+"(?P<value>[^;#]+?)"`. -/
def value1Pat : Pat :=
  .seq wsPat (.seq (.cls fun c => c == ':' || c == '=')
    (.seq wsPat (.plusLazy (some ("value")) fun c => !(c == ';' || c == '#'))))

/-- `value2 = white_space+"[\s]"+white_space+"(?P<value>[^;#\s]+?)"`. -/
def value2Pat : Pat :=
  .seq wsPat (.seq (.cls isPyWhitespace)
    (.seq wsPat (.plusLazy (some ("value"))
      fun c => !(c == ';' || c == '#' || isPyWhitespace c))))

/-- `comment = white_space+"(?P<comment>\s[;#].*)?"`. -/
def commentPat : Pat :=
  .seq wsPat (.opt (.seq (.cls isPyWhitespace)
    (.seq (.cls fun c => c == ';' || c == '#') .dotStar)))

/-- `"^" + key + comment + "$"`. -/
def keyOnlyPat : Pat := .seq keyPat commentPat

/-- `"^" + key + value1 + comment + "$"`. -/
def keyValue1Pat : Pat := .seq keyPat (.seq value1Pat commentPat)

/-- `"^" + key + value2 + comment + "$"`. -/
def keyValue2Pat : Pat := .seq keyPat (.seq value2Pat commentPat)

/-- Read a named group out of a successful match. -/
def capGet (caps : Caps) (g : String) : String := (caps.lookup g).getD ("")

/-- `re.match("^" + key + comment + "$", line)` followed by `.group("key")`. -/
def keyOnlyMatch (line : String) : Option String :=
  (fullMatch keyOnlyPat line).map fun caps => capGet caps ("key")

/-- `re.match(keyValue1) or re.match(keyValue2)`, returning `(key, value)`. -/
def keyValueMatch (line : String) : Option (String × String) :=
  match (fullMatch keyValue1Pat line).orElse fun _ => fullMatch keyValue2Pat line with
  | some caps => some (capGet caps ("key"), capGet caps ("value"))
  | none => none

/-- The payload of a `ConfigFileParserException`: the enumerate index of the
offending line, the stream name, and the (stripped) line text, as interpolated
into `"Unexpected line %s in %s: %s"`. -/
structure ConfigParseError where
  lineIndex : Nat
  streamName : String
  line : String
deriving DecidableEq, Repr

/-- The rendered exception message `"Unexpected line %s in %s: %s"`. -/
def renderConfigError (e : ConfigParseError) : String :=
  ("Unexpected line ") ++ toString e.lineIndex ++ (" in ") ++ e.streamName ++
    (": ") ++ e.line

/-- `OrderedDict` assignment `settings[key] = value`: an existing key keeps its
position and gets the new value, a fresh key is appended. -/
def odInsert (m : List (String × String)) (k v : String) : List (String × String) :=
  if m.any fun p => p.1 == k then
    m.map fun p => if p.1 == k then (k, v) else p
  else m ++ [(k, v)]

/-- The skip test of `ConfigFileParser.parse`:
`if not line or line[0] in ["#", ";", "["] or line.startswith("---")`. -/
def lineSkipped (l : String) : Bool :=
  let line := pyStrip l
  line.toList.isEmpty || line.toList.headD ' ' == '#' || line.toList.headD ' ' == ';' ||
    line.toList.headD ' ' == '[' || pyStartsWith line ("---")

/-- A stripped line matches the key-only pattern or a key/value pattern. -/
def lineMatchesSome (l : String) : Bool :=
  (keyOnlyMatch (pyStrip l)).isSome || (keyValueMatch (pyStrip l)).isSome

/-- A line that `ConfigFileParser.parse` can neither skip nor match. -/
def lineBad (l : String) : Bool := !lineSkipped l && !lineMatchesSome l

/-- The loop body of `ConfigFileParser.parse`: `i` is the running `enumerate`
index, `acc` the `settings` ordered dictionary built so far. -/
def parseLoop (name : String) : Nat → List String → List (String × String) →
    Except ConfigParseError (List (String × String))
  | _, [], acc => .ok acc
  | i, l :: rest, acc =>
    if lineSkipped l then parseLoop name (i + 1) rest acc
    else
      match keyOnlyMatch (pyStrip l) with
      | some k => parseLoop name (i + 1) rest (odInsert acc k ("true"))
      | none =>
        match keyValueMatch (pyStrip l) with
        | some kv => parseLoop name (i + 1) rest (odInsert acc kv.1 kv.2)
        | none => .error ⟨i, name, pyStrip l⟩

/-- `ConfigFileParser.parse(stream)`: the stream is embedded as its name plus
its list of lines; returns the ordered `settings` dictionary or the
`ConfigFileParserException` data. -/
def ConfigFileParser.parse (name : String) (lines : List String) :
    Except ConfigParseError (List (String × String)) :=
  parseLoop name 0 lines []

/-- The arity/kind of an argparse action, as tested by
`type(action)` checks in the source (`_StoreAction`, `_AppendAction`,
`_StoreTrueAction`, `_StoreFalseAction`, `_CountAction`, `_StoreConstAction`,
`_AppendConstAction`). -/
inductive ActionKind where
  | store | append | storeTrue | storeFalse | count | storeConst | appendConst
deriving DecidableEq, Repr

/-- Membership in `ACTION_TYPES_THAT_DONT_NEED_A_VALUE`. -/
def actionTypeNeedsNoValue : ActionKind → Bool
  | .storeTrue | .storeFalse | .count | .storeConst | .appendConst => true
  | .store | .append => false

/-- One registered argparse action with the extra metadata that
`configargparse`'s wrapped `add_argument` attaches (`env_var`); `default`
is embedded as an optional string (the source stringifies defaults when it
records them). -/
structure Action where
  optionStrings : List String
  dest : String
  kind : ActionKind
  envVar : Option String := none
  defaultValue : Option String := none
deriving DecidableEq, Repr

/-- `a.is_positional_arg = not a.option_strings`. -/
def Action.isPositionalArg (a : Action) : Bool := a.optionStrings.isEmpty

/-- `already_on_command_line(existing_args, potential_command_line_args)`:
`any(potential_arg in existing_args for potential_arg in potential_command_line_args)`. -/
def already_on_command_line (existingArgs : List String)
    (potentialCommandLineArgs : List String) : Bool :=
  potentialCommandLineArgs.any fun potentialArg => existingArgs.contains potentialArg

/-- Python iteration over a string yields its characters one by one; this is
what happens when a plain string is passed where a list of strings is
expected (as at the unknown-config-key call site of
`already_on_command_line`). -/
def charStrings (s : String) : List String := s.toList.map fun c => String.mk [c]

/-- `get_possible_config_keys(action)`: for every option string starting with
a doubled prefix character, contribute `[arg[2:], arg]`. -/
def get_possible_config_keys (prefixChars : String) (a : Action) : List String :=
  a.optionStrings.foldl
    (fun keys arg =>
      if prefixChars.toList.any fun c => pyStartsWith arg (String.mk [c, c]) then
        keys ++ [String.mk (arg.toList.drop 2), arg]
      else keys)
    []

/-- `get_command_line_key_for_unknown_config_file_setting(key)`:
`self.prefix_chars[0]*2 + key.strip(self.prefix_chars)`. -/
def get_command_line_key_for_unknown_config_file_setting (prefixChars : String)
    (key : String) : String :=
  String.mk [prefixChars.toList.headD '-', prefixChars.toList.headD '-'] ++
    pyStripChars prefixChars.toList key

/-- `convert_setting_to_command_line_arg(action, key, value)`; calls to
`self.error(...)` become `.error` with the formatted message (the
`type(value) != str` guard is vacuous here since `value` is a `String`). -/
def convert_setting_to_command_line_arg (prefixChars : String)
    (action : Option Action) (key value : String) : Except String (List String) :=
  let commandLineKey :=
    match action with
    | none => get_command_line_key_for_unknown_config_file_setting prefixChars key
    | some a => a.optionStrings.getLastD ("")
  if pyLower value == ("true") then
    match action with
    | some a =>
      if actionTypeNeedsNoValue a.kind then .ok [commandLineKey]
      else .error (key ++ (" set to \x27True\x27 rather than a value"))
    | none => .ok [commandLineKey]
  else if pyStartsWith value ("[") && pyEndsWith value ("]") then
    let listArgs :=
      (splitOnComma ((value.toList.drop 1).dropLast)).foldl
        (fun acc listElem => acc ++ [commandLineKey, pyStrip (String.mk listElem)]) []
    match action with
    | some a =>
      if a.kind != .append then
        .error (key ++ (" can\x27t be set to a list \x27") ++ value ++
          ("\x27 unless its action type is changed to \x27append\x27"))
      else .ok listArgs
    | none => .ok listArgs
  else
    match action with
    | some a =>
      if actionTypeNeedsNoValue a.kind then
        .error (key ++ (" is a flag but is being set to \x27") ++ value ++ ("\x27"))
      else .ok [commandLineKey, value]
    | none => .ok [commandLineKey, value]

/-- The constructor settings of `ArgumentParser` that the value-resolution
engine reads during `parse_known_args`; `auto_env_var_prefix` is left at its
default `None` (none of the verified claims involve it), so the
auto-env-var block of the source is a no-op here. -/
structure ParserSettings where
  prefixChars : String := ("-")
  ignoreUnknownConfigFileKeys : Bool := false
deriving Repr

/-- `known_config_keys = dict((config_key, action) for action in self._actions
for config_key in self.get_possible_config_keys(action))`, kept as the listed
pairs in generation order. -/
def knownConfigKeysList (prefixChars : String) (actions : List Action) :
    List (String × Action) :=
  actions.foldl
    (fun acc a => acc ++ (get_possible_config_keys prefixChars a).map fun k => (k, a))
    []

/-- Python `dict` lookup over the listed pairs: a later binding for the same
key overwrites an earlier one, so the last binding is returned. -/
def dictGet (d : List (String × Action)) (k : String) : Option Action :=
  d.reverse.lookup k

/-- `a.env_var and a.env_var in env_vars`. -/
def envVarPresent (env : List (String × String)) (a : Action) : Bool :=
  match a.envVar with
  | some k => (env.lookup k).isSome
  | none => false

/-- `actions_with_env_var_values`: the filter is evaluated against the
original command line before any env-var tokens are appended. -/
def actionsWithEnvVarValues (actions : List Action) (args : List String)
    (env : List (String × String)) : List Action :=
  actions.filter fun a =>
    !a.isPositionalArg && envVarPresent env a &&
      !already_on_command_line args a.optionStrings

/-- The loop building `env_var_args` from the filtered actions. -/
def buildEnvVarArgs (ps : ParserSettings) (env : List (String × String)) :
    List Action → Except String (List String)
  | [] => .ok []
  | a :: rest => do
    let key := a.envVar.getD ("")
    let value := (env.lookup key).getD ("")
    let toks ← convert_setting_to_command_line_arg ps.prefixChars (some a) key value
    let more ← buildEnvVarArgs ps env rest
    .ok (toks ++ more)

/-- The per-file settings loop of `parse_known_args`: builds `config_args`
for one parsed config file; `args` stays fixed for the whole file because the
source only appends `config_args` after the loop.  At the unknown-key test
the source passes the synthesized key as a bare string, which Python
iterates character by character — hence `charStrings`. -/
def buildConfigArgs (ps : ParserSettings) (known : List (String × Action))
    (args : List String) : List (String × String) → Except String (List String)
  | [] => .ok []
  | (key, value) :: rest =>
    let lookedUp := dictGet known key
    let discardThisKey :=
      match lookedUp with
      | some action => already_on_command_line args action.optionStrings
      | none =>
        ps.ignoreUnknownConfigFileKeys ||
          already_on_command_line args
            (charStrings
              (get_command_line_key_for_unknown_config_file_setting ps.prefixChars key))
    if discardThisKey then buildConfigArgs ps known args rest
    else do
      let toks ← convert_setting_to_command_line_arg ps.prefixChars lookedUp key value
      let more ← buildConfigArgs ps known args rest
      .ok (toks ++ more)

/-- `for stream in config_streams[::-1]` body: parse each stream (a parse
failure aborts through `self.error`), build its `config_args`, then
`args += config_args` before moving to the next stream.  The caller passes
the streams already reversed. -/
def processConfigStreams (ps : ParserSettings) (known : List (String × Action)) :
    List (String × List String) → List String → Except String (List String)
  | [], args => .ok args
  | (name, lines) :: rest, args =>
    match ConfigFileParser.parse name lines with
    | .error e => .error (renderConfigError e)
    | .ok configSettings =>
      match buildConfigArgs ps known args configSettings with
      | .error m => .error m
      | .ok configArgs => processConfigStreams ps known rest (args ++ configArgs)

/-- A value bound in the result namespace. -/
inductive Val where
  | vstr (s : String)
  | vlist (l : List String)
  | vbool (b : Bool)
  | vnone
deriving DecidableEq, Repr

/-- Modelled from the spec: the initial namespace of the underlying
flag-grammar engine (§6, an external collaborator not in this repository's
source) — every declared option's dest starts at its declared default;
store-true/store-false flags start at false/true as argparse sets up. -/
def initNamespace (actions : List Action) : List (String × Val) :=
  actions.map fun a =>
    (a.dest,
      match a.kind, a.defaultValue with
      | .storeTrue, _ => .vbool false
      | .storeFalse, _ => .vbool true
      | _, some d => .vstr d
      | _, none => .vnone)

/-- Update a dest in the namespace. -/
def nsSet (ns : List (String × Val)) (dest : String) (v : Val) : List (String × Val) :=
  ns.map fun p => if p.1 == dest then (dest, v) else p

/-- Read a dest from the namespace. -/
def nsGet (ns : List (String × Val)) (dest : String) : Val :=
  (ns.lookup dest).getD .vnone

/-- Appending to a possibly-unset append-action value, as argparse does. -/
def appendVal (old : Val) (v : String) : Val :=
  match old with
  | .vlist l => .vlist (l ++ [v])
  | _ => .vlist [v]

/-- Modelled from the spec: the underlying flag-grammar engine
(`argparse.ArgumentParser.parse_known_args`, §6 — an external collaborator
consumed through a narrow interface and not part of this repository's
source), restricted to what the verified claims exercise: exact matching of
option strings, store (last occurrence wins), append and store-true
arities, no declared positionals; unmatched tokens are returned as the
unknown-argument list in order.  The remaining arity kinds and the
missing-value error path are not exercised by any claim. -/
def bindArgs (actions : List Action) : List String → List (String × Val) →
    List String → List (String × Val) × List String
  | [], ns, unknown => (ns, unknown)
  | t :: rest, ns, unknown =>
    match actions.find? fun a => a.optionStrings.contains t with
    | none => bindArgs actions rest ns (unknown ++ [t])
    | some a =>
      match a.kind with
      | .storeTrue => bindArgs actions rest (nsSet ns a.dest (.vbool true)) unknown
      | .storeFalse => bindArgs actions rest (nsSet ns a.dest (.vbool false)) unknown
      | .store =>
        match rest with
        | [] => (ns, unknown)
        | v :: rest2 => bindArgs actions rest2 (nsSet ns a.dest (.vstr v)) unknown
      | .append =>
        match rest with
        | [] => (ns, unknown)
        | v :: rest2 =>
          bindArgs actions rest2 (nsSet ns a.dest (appendVal (nsGet ns a.dest) v)) unknown
      | _ => bindArgs actions rest ns unknown

/-- `ArgumentParser.parse_known_args(args, env_vars)` for a parser whose
config streams have already been located (`_open_config_files` performs file
I/O; its result — default files first, then user-specified files, in
declaration order — is taken here as the `configStreams` input).  Stages, in
source order: append env-var-derived tokens for actions whose flag is not
already on the command line; then for each config stream in reverse locator
order parse it and append tokens for settings whose flag is still absent;
finally hand the token list to the flag-grammar engine.  The
`_source_to_settings` provenance record and the write-out-config-file block
are diagnostics/output features no claim touches and are omitted. -/
def parse_known_args (ps : ParserSettings) (actions : List Action)
    (args : List String) (env : List (String × String))
    (configStreams : List (String × List String)) :
    Except String (List (String × Val) × List String) :=
  match buildEnvVarArgs ps env (actionsWithEnvVarValues actions args env) with
  | .error m => .error m
  | .ok envVarArgs =>
    let argsWithEnv := args ++ envVarArgs
    let known := knownConfigKeysList ps.prefixChars actions
    match processConfigStreams ps known configStreams.reverse argsWithEnv with
    | .error m => .error m
    | .ok finalArgs => .ok (bindArgs actions finalArgs (initNamespace actions) [])

/-- The process-wide `_parsers` registry: a mapping from name to the created
`ArgumentParser` instance (instances are abstracted to numeric identities;
`nextId` supplies the identity a new construction would get). -/
structure ParserRegistry where
  parsers : List (String × Nat)
  nextId : Nat
deriving DecidableEq, Repr

/-- `initArgumentParser(name=None, **kwargs)`: raises `ValueError` when the
name is already registered, otherwise constructs and stores a new instance. -/
def initArgumentParser (name : Option String) (st : ParserRegistry) :
    Except String ParserRegistry :=
  let n := name.getD ("default")
  if (st.parsers.lookup n).isSome then
    .error (("kwargs besides \x27name\x27 can only be passed in the first time. \x27") ++
      n ++ ("\x27 ArgumentParser already exists"))
  else .ok ⟨st.parsers ++ [(n, st.nextId)], st.nextId + 1⟩

/-- `getArgumentParser(name=None, **kwargs)`: `hasKwargs` embeds
`len(kwargs) > 0`; creates through `initArgumentParser` when kwargs were
given or the name is unregistered, then returns `_parsers[name]`. -/
def getArgumentParser (name : Option String) (hasKwargs : Bool)
    (st : ParserRegistry) : Except String (ParserRegistry × Nat) :=
  let n := name.getD ("default")
  if hasKwargs || (st.parsers.lookup n).isNone then
    match initArgumentParser name st with
    | .error m => .error m
    | .ok st2 => .ok (st2, (st2.parsers.lookup n).getD 0)
  else .ok (st, (st.parsers.lookup n).getD 0)

/-- The option used by the precedence scenario of claim C2. -/
def formatAction : Action :=
  { optionStrings := [("--format")], dest := ("format"), kind := .store,
    envVar := some ("OUTPUT_FORMAT"), defaultValue := some ("BED") }

/-- A plain scalar option settable from a config file (claims C1 and C10). -/
def xAction : Action :=
  { optionStrings := [("--x")], dest := ("x"), kind := .store }

/-- A list-arity (append) option (claim C3). -/
def zAction : Action :=
  { optionStrings := [("--z")], dest := ("z"), kind := .append }

/-- A list-arity (append) option keyed `key` (claim C6). -/
def appendKeyAction : Action :=
  { optionStrings := [("--key")], dest := ("key"), kind := .append }

/-- A flag-only (store-true) option (claim C4). -/
def verboseFlagAction : Action :=
  { optionStrings := [("--verbose")], dest := ("verbose"), kind := .storeTrue }

/-- A declared scalar option with a default (claim C7). -/
def knownAction : Action :=
  { optionStrings := [("--known")], dest := ("known"), kind := .store,
    defaultValue := some ("d") }

/-- A scalar option with no environment binding (claim C10). -/
def otherAction : Action :=
  { optionStrings := [("--other")], dest := ("other"), kind := .store }

/-- A scalar option bound to the `FLAG` environment variable (claim C10). -/
def flagValAction : Action :=
  { optionStrings := [("--flag")], dest := ("flag"), kind := .store,
    envVar := some ("FLAG"), defaultValue := some ("D") }

/-- Helper: looking a key up in an appended association list skips a left
part that does not bind the key. -/
theorem lookup_append_of_none {β : Type} (l1 l2 : List (String × β)) (k : String)
    (h : l1.lookup k = none) : (l1 ++ l2).lookup k = l2.lookup k := by
  induction l1 with
  | nil => simp
  | cons p rest ih =>
    obtain ⟨a, b⟩ := p
    simp only [List.cons_append, List.lookup] at h ⊢
    cases hbeq : k == a with
    | true => rw [hbeq] at h; exact Option.noConfusion h
    | false => rw [hbeq] at h; exact ih h

/-- Helper: if every line before position `i` is skippable or matchable and
line `i` is neither, the parse loop started at counter `n` stops with the
error indexed `n + i`. -/
theorem parseLoop_error_at (name : String) :
    ∀ (lines : List String) (n i : Nat) (acc : List (String × String)),
      i < lines.length →
      (∀ j, j < i → lineBad (lines.getD j ("")) = false) →
      lineBad (lines.getD i ("")) = true →
      parseLoop name n lines acc = .error ⟨n + i, name, pyStrip (lines.getD i (""))⟩ := by
  intro lines
  induction lines with
  | nil =>
    intro n i acc hlen _ _
    exact absurd hlen (by simp)
  | cons l rest ih =>
    intro n i acc hlen hprev hbad
    match i with
    | 0 =>
      simp only [List.getD_cons_zero] at hbad ⊢
      have hparts : lineSkipped l = false ∧ lineMatchesSome l = false := by
        revert hbad
        unfold lineBad
        cases lineSkipped l <;> cases lineMatchesSome l <;> simp
      have hko : keyOnlyMatch (pyStrip l) = none := by
        have := hparts.2
        unfold lineMatchesSome at this
        cases hk : keyOnlyMatch (pyStrip l) with
        | none => rfl
        | some k => rw [hk] at this; simp at this
      have hkv : keyValueMatch (pyStrip l) = none := by
        have := hparts.2
        unfold lineMatchesSome at this
        cases hk : keyValueMatch (pyStrip l) with
        | none => rfl
        | some kv => rw [hk] at this; simp at this
      simp [parseLoop, hparts.1, hko, hkv]
    | i' + 1 =>
      have hlen' : i' < rest.length := by simpa using hlen
      have hprev' : ∀ j, j < i' → lineBad (rest.getD j ("")) = false := by
        intro j hj
        have := hprev (j + 1) (by omega)
        simpa using this
      have hbad' : lineBad (rest.getD i' ("")) = true := by simpa using hbad
      have hgood : lineBad l = false := by
        have := hprev 0 (by omega)
        simpa using this
      have harith : n + (i' + 1) = (n + 1) + i' := by omega
      rw [List.getD_cons_succ, harith]
      cases hsk : lineSkipped l with
      | true =>
        simp only [parseLoop, hsk, if_true]
        exact ih (n + 1) i' acc hlen' hprev' hbad'
      | false =>
        cases hko : keyOnlyMatch (pyStrip l) with
        | some k =>
          simp only [parseLoop, hsk, Bool.false_eq_true, if_false, hko]
          exact ih (n + 1) i' (odInsert acc k ("true")) hlen' hprev' hbad'
        | none =>
          cases hkv : keyValueMatch (pyStrip l) with
          | some kv =>
            simp only [parseLoop, hsk, Bool.false_eq_true, if_false, hko, hkv]
            exact ih (n + 1) i' (odInsert acc kv.1 kv.2) hlen' hprev' hbad'
          | none =>
            exfalso
            have : lineBad l = true := by
              unfold lineBad lineMatchesSome
              rw [hsk, hko, hkv]
              rfl
            rw [this] at hgood
            simp at hgood

/-- C1 (counterexample): with a scalar option `--x` set in two discovered
config files (`f1` earlier in locator order, `f2` later) and absent from the
command line and environment, `parse_known_args` resolves the value `b` from
the later file `f2`, not the value `a` from the earliest file — the claim
that the earliest-discovered file takes precedence is false on this code. -/
theorem c1_counterexample :
    parse_known_args {} [xAction] [] [] [(("f1"), [("x = a")]), (("f2"), [("x = b")])] =
      .ok ([(("x"), Val.vstr ("b"))], []) ∧ (("b") : String) ≠ ("a") :=
  ⟨rfl, by decide⟩

/-- C1 (amended): for a scalar option set in two discovered config files and
absent from the command line and environment, `parse_known_args` resolves the
value from the LATEST-discovered config file (the last in locator order),
because the streams are processed in reverse locator order and a setting is
discarded once its flag is already on the evolving token list: for any two
files whose parses bind the key `x` to `v1` and `v2` respectively, the later
file's `v2` wins whenever `v2` is a plain scalar (not the `true` literal and
not bracketed). -/
theorem c1_amended_later_file_wins (l1 l2 : List String) (v1 v2 : String)
    (h1 : ConfigFileParser.parse ("f1") l1 = .ok [(("x"), v1)])
    (h2 : ConfigFileParser.parse ("f2") l2 = .ok [(("x"), v2)])
    (h3 : (pyLower v2 == ("true")) = false)
    (h4 : (pyStartsWith v2 ("[") && pyEndsWith v2 ("]")) = false) :
    parse_known_args {} [xAction] [] [] [(("f1"), l1), (("f2"), l2)] =
      .ok ([(("x"), Val.vstr v2)], []) := by
  have hstep : parse_known_args {} [xAction] [] [] [(("f1"), l1), (("f2"), l2)] =
      match processConfigStreams {} (knownConfigKeysList ("-") [xAction])
          [(("f2"), l2), (("f1"), l1)] [] with
      | .error m => .error m
      | .ok finalArgs => .ok (bindArgs [xAction] finalArgs (initNamespace [xAction]) []) :=
    rfl
  rw [hstep]
  simp only [processConfigStreams, h1, h2]
  simp only [buildConfigArgs, convert_setting_to_command_line_arg, h3, h4]
  simp [processConfigStreams, buildConfigArgs, bindArgs, initNamespace, nsSet,
    knownConfigKeysList, get_possible_config_keys, xAction, dictGet,
    already_on_command_line, actionTypeNeedsNoValue, List.lookup,
    Bind.bind, Except.bind]

/-- C1 (witness): a concrete instance of the amended precedence rule. -/
theorem c1_witness :
    parse_known_args {} [xAction] [] [] [(("f1"), [("x = AAA")]), (("f2"), [("x = BBB")])] =
      .ok ([(("x"), Val.vstr ("BBB"))], []) :=
  c1_amended_later_file_wins [("x = AAA")] [("x = BBB")] ("AAA") ("BBB")
    rfl rfl (by decide) (by decide)

/-- C2: the precedence scenario — command line `--format WIG`, environment
`OUTPUT_FORMAT=R`, config file `format = MAF`, default `BED`: with all four
sources the command-line value wins; dropping the command line the
environment wins; dropping that the config file wins; dropping that the
default applies. -/
theorem c2_precedence_scenario :
    parse_known_args {} [formatAction] [("--format"), ("WIG")] [(("OUTPUT_FORMAT"), ("R"))]
        [(("config"), [("format = MAF")])] = .ok ([(("format"), Val.vstr ("WIG"))], []) ∧
    parse_known_args {} [formatAction] [] [(("OUTPUT_FORMAT"), ("R"))]
        [(("config"), [("format = MAF")])] = .ok ([(("format"), Val.vstr ("R"))], []) ∧
    parse_known_args {} [formatAction] [] [] [(("config"), [("format = MAF")])] =
      .ok ([(("format"), Val.vstr ("MAF"))], []) ∧
    parse_known_args {} [formatAction] [] [] [] =
      .ok ([(("format"), Val.vstr ("BED"))], []) :=
  ⟨rfl, rfl, rfl, rfl⟩

/-- C3 (counterexample): the config parser is descriptor-agnostic — a
repeated scalar-valued key always overwrites in the settings dictionary, so
for the list-arity option `--z` the file `z = 30 / z = 40` resolves to the
one-element list `[40]`, not to `[30, 40]` as the claim (one element per
repeated line, in file order) would require. -/
theorem c3_counterexample :
    ConfigFileParser.parse ("f") [("z = 30"), ("z = 40")] = .ok [(("z"), ("40"))] ∧
    parse_known_args {} [zAction] [] [] [(("f"), [("z = 30"), ("z = 40")])] =
      .ok ([(("z"), Val.vlist [("40")])], []) ∧
    Val.vlist [("40")] ≠ Val.vlist [("30"), ("40")] :=
  ⟨rfl, rfl, by decide⟩

/-- C3 (amended): when a key repeats across scalar-valued lines of one config
file, the last occurrence wins regardless of the bound option's arity — a
list-arity option receives a one-element list holding the last value; only
the explicit bracketed syntax `[e1, e2]` on a single line produces multiple
list elements. -/
theorem c3_amended_last_occurrence_wins :
    parse_known_args {} [zAction] [] [] [(("f"), [("z = 30"), ("z = 40")])] =
      .ok ([(("z"), Val.vlist [("40")])], []) ∧
    parse_known_args {} [zAction] [] [] [(("f"), [("z = [30, 40]")])] =
      .ok ([(("z"), Val.vlist [("30"), ("40")])], []) :=
  ⟨rfl, rfl⟩

/-- C4 (counterexample): for the flag-only option `--verbose`, the value
`yes` — which the claim says resolves to logical true — and the value `0` —
which the claim says resolves to logical false — both make
`convert_setting_to_command_line_arg` raise the "is a flag but is being set
to" error instead. -/
theorem c4_counterexample :
    convert_setting_to_command_line_arg ("-") (some verboseFlagAction) ("VERBOSE") ("yes") =
      .error (("VERBOSE is a flag but is being set to \x27yes\x27")) ∧
    convert_setting_to_command_line_arg ("-") (some verboseFlagAction) ("VERBOSE") ("0") =
      .error (("VERBOSE is a flag but is being set to \x270\x27")) :=
  ⟨rfl, rfl⟩

/-- C4 (amended): for a flag-only option only the value `true`
(case-insensitive) is accepted, emitting just the flag token; every other
string — including `yes`, `1`, `on`, and also the would-be falsy tokens
`false`, `no`, `0`, `off` — raises the error naming the key and the received
value (there is no falsy token set in this code). -/
theorem c4_amended_only_true_token (v : String)
    (h1 : (pyLower v == ("true")) = false)
    (h2 : (pyStartsWith v ("[") && pyEndsWith v ("]")) = false) :
    (∀ w : String, (pyLower w == ("true")) = true →
        convert_setting_to_command_line_arg ("-") (some verboseFlagAction) ("VERBOSE") w =
          .ok [("--verbose")]) ∧
    convert_setting_to_command_line_arg ("-") (some verboseFlagAction) ("VERBOSE") v =
      .error (("VERBOSE is a flag but is being set to \x27") ++ v ++ ("\x27")) := by
  constructor
  · intro w hw
    simp [convert_setting_to_command_line_arg, hw, verboseFlagAction,
      actionTypeNeedsNoValue]
  · simp [convert_setting_to_command_line_arg, h1, h2, verboseFlagAction,
      actionTypeNeedsNoValue]

/-- C4 (witness): concrete instances of the amended boolean-coercion rule. -/
theorem c4_witness :
    convert_setting_to_command_line_arg ("-") (some verboseFlagAction) ("VERBOSE") ("TRUE") =
      .ok [("--verbose")] ∧
    convert_setting_to_command_line_arg ("-") (some verboseFlagAction) ("VERBOSE") ("false") =
      .error (("VERBOSE is a flag but is being set to \x27false\x27")) :=
  ⟨(c4_amended_only_true_token ("false") (by decide) (by decide)).1 ("TRUE") (by decide),
   (c4_amended_only_true_token ("false") (by decide) (by decide)).2⟩

/-- C5 (counterexample): `ConfigFileParser.parse` performs no quote
stripping — the line `key = "hello"` parses to the value `"hello"` with the
surrounding double quotes retained, not to `hello` as the claim requires. -/
theorem c5_counterexample :
    ConfigFileParser.parse ("f") [("key = \"hello\"")] = .ok [(("key"), ("\"hello\""))] ∧
    (("\"hello\"") : String) ≠ ("hello") :=
  ⟨rfl, by decide⟩

/-- C5 (amended): quoted values are returned verbatim — a value surrounded by
a matching pair of double or single quotes keeps both quote characters as
literal content, exactly as a value with an unbalanced quote does. -/
theorem c5_amended_quotes_kept :
    ConfigFileParser.parse ("f") [("a = \"hi\"")] = .ok [(("a"), ("\"hi\""))] ∧
    ConfigFileParser.parse ("f") [("b = \x27hi\x27")] = .ok [(("b"), ("\x27hi\x27"))] ∧
    ConfigFileParser.parse ("f") [("c = \"hi")] = .ok [(("c"), ("\"hi"))] :=
  ⟨rfl, rfl, rfl⟩

/-- C6: parsing `key = [a, b, c]` yields the raw bracketed value, and
synthesizing tokens for the append-arity option `--key` yields exactly the
three (flag, element) pairs in order with each element trimmed. -/
theorem c6_bracketed_list_tokens :
    ConfigFileParser.parse ("f") [("key = [a, b, c]")] = .ok [(("key"), ("[a, b, c]"))] ∧
    convert_setting_to_command_line_arg ("-") (some appendKeyAction) ("key") ("[a, b, c]") =
      .ok [("--key"), ("a"), ("--key"), ("b"), ("--key"), ("c")] :=
  ⟨rfl, rfl⟩

/-- C7: for the undeclared config key `mystery`: with
`ignore_unknown_config_file_keys = True` the key reaches neither the bound
result (which keeps only the declared option at its default) nor the
unknown-token list; with `False` it is synthesized into the long-flag token
`--mystery` (two prefix characters prepended to the stripped key) and
surfaces, with its value, only in the unknown-token list. -/
theorem c7_unknown_key_boundary :
    parse_known_args { ignoreUnknownConfigFileKeys := true } [knownAction] [] []
        [(("f"), [("mystery = 42")])] = .ok ([(("known"), Val.vstr ("d"))], []) ∧
    parse_known_args { ignoreUnknownConfigFileKeys := false } [knownAction] [] []
        [(("f"), [("mystery = 42")])] =
      .ok ([(("known"), Val.vstr ("d"))], [("--mystery"), ("42")]) ∧
    get_command_line_key_for_unknown_config_file_setting ("-") ("mystery") = ("--mystery") :=
  ⟨rfl, rfl, rfl⟩

/-- C8: any line that is neither skippable (blank, comment, section header,
separator) nor matched by the key-only or key/value patterns makes
`ConfigFileParser.parse` fail with a `ConfigFileParserException` carrying
exactly the offending line's enumerate index, the stream name and the
stripped line text (so no settings mapping is returned), provided the
earlier lines are all well-formed. -/
theorem c8_parse_error_names_line (name : String) (lines : List String) (i : Nat)
    (hlen : i < lines.length)
    (hprev : ∀ j, j < i → lineBad (lines.getD j ("")) = false)
    (hbad : lineBad (lines.getD i ("")) = true) :
    ConfigFileParser.parse name lines = .error ⟨i, name, pyStrip (lines.getD i (""))⟩ := by
  have := parseLoop_error_at name lines 0 i [] hlen hprev hbad
  simpa [ConfigFileParser.parse] using this

/-- C8 (witness): the malformed second line `= x` (after a well-formed line)
is reported with index 1 and the stream name. -/
theorem c8_witness :
    ConfigFileParser.parse ("f") [("k = v"), ("= x")] = .error ⟨1, ("f"), ("= x")⟩ :=
  c8_parse_error_names_line ("f") [("k = v"), ("= x")] 1 (by decide)
    (by
      intro j hj
      match j, hj with
      | 0, _ => decide)
    (by decide)

/-- C9: the global named-parser registry has create-once-then-reuse
semantics — when a name is unregistered, `getArgumentParser` (with or
without constructor kwargs) creates and stores one instance; calling again
for the same name without kwargs returns exactly that cached instance and
leaves the registry unchanged; calling again with kwargs raises the
`ValueError` instead of replacing the instance. -/
theorem c9_registry_create_once (st : ParserRegistry) (name : Option String) (hk : Bool)
    (h : st.parsers.lookup (name.getD ("default")) = none) :
    getArgumentParser name hk st =
      .ok (⟨st.parsers ++ [(name.getD ("default"), st.nextId)], st.nextId + 1⟩, st.nextId) ∧
    getArgumentParser name false
        ⟨st.parsers ++ [(name.getD ("default"), st.nextId)], st.nextId + 1⟩ =
      .ok (⟨st.parsers ++ [(name.getD ("default"), st.nextId)], st.nextId + 1⟩, st.nextId) ∧
    ∃ e, getArgumentParser name true
        ⟨st.parsers ++ [(name.getD ("default"), st.nextId)], st.nextId + 1⟩ = .error e := by
  have hlook : (st.parsers ++ [(name.getD ("default"), st.nextId)]).lookup
      (name.getD ("default")) = some st.nextId := by
    rw [lookup_append_of_none st.parsers _ _ h]
    simp [List.lookup]
  refine ⟨?_, ?_, ?_⟩
  · simp [getArgumentParser, initArgumentParser, h, hlook]
  · simp [getArgumentParser, initArgumentParser, hlook]
  · exact ⟨("kwargs besides \x27name\x27 can only be passed in the first time. \x27") ++
      name.getD ("default") ++ ("\x27 ArgumentParser already exists"),
      by simp [getArgumentParser, initArgumentParser, hlook]⟩

/-- C9 (witness): concrete create-once-then-reuse run from the empty
registry under the default name. -/
theorem c9_witness :
    getArgumentParser none false ⟨[], 0⟩ = .ok (⟨[(("default"), 0)], 1⟩, 0) ∧
    getArgumentParser none false ⟨[(("default"), 0)], 1⟩ = .ok (⟨[(("default"), 0)], 1⟩, 0) ∧
    ∃ e, getArgumentParser none true ⟨[(("default"), 0)], 1⟩ = .error e :=
  c9_registry_create_once ⟨[], 0⟩ none false rfl

/-- C10: `already_on_command_line` is pure token membership — it holds
exactly when some option string is an element of the token list, with no
regard for the element's position or role; consequently, on the command line
`--other --flag` (where `--flag` is merely the value of `--other`), the
environment value `E` bound to `--flag` is suppressed and `--flag` resolves
to its default `D` while `--other` binds the literal text `--flag`. -/
theorem c10_membership_suppression :
    (∀ (existingArgs potentialArgs : List String),
        already_on_command_line existingArgs potentialArgs = true ↔
          ∃ a, a ∈ potentialArgs ∧ a ∈ existingArgs) ∧
    parse_known_args {} [otherAction, flagValAction] [("--other"), ("--flag")]
        [(("FLAG"), ("E"))] [] =
      .ok ([(("other"), Val.vstr ("--flag")), (("flag"), Val.vstr ("D"))], []) := by
  constructor
  · intro existingArgs potentialArgs
    simp [already_on_command_line, List.any_eq_true]
  · rfl

end ConfigArgParse
